import Mathlib

/-!
Shallow embedding of `packages/altair-api/src/queries/queries.service.ts`
(the `QueriesService` class of the altair repository).

The Prisma-backed data store is modelled as explicit lists of rows inside a
`Db` record; each service method becomes a function `Db → Except ApiError α × Db`
that threads the store state.  Writes performed before an exception persist
(there are no transactions in the source), so even the error results carry the
updated state.  The event emitter is modelled by an `events` log in the state,
and the number of times the private `addQueryRevision` method is entered is
tracked by the `revisionCalls` counter so that control-flow claims about the
Revision Manager can be stated.
-/

namespace Altair

/-- Constant `DEFAULT_QUERY_REVISION_LIMIT` from queries.service.ts. -/
def DEFAULT_QUERY_REVISION_LIMIT : Nat := 10

/-- The event name `EVENTS.QUERY_UPDATE` used by every emit in the service. -/
def QUERY_UPDATE_EVENT : String := "query.update"

/-- The opaque `content` payload of a query: an object with an integer
`version` field and a `query` field (modelled as a string; the empty string
stands for a JS-falsy value). -/
structure QueryContent where
  version : Nat
  query : String
  deriving DecidableEq, Repr

/-- A workspace row: owner and optional team. -/
structure Workspace where
  id : String
  ownerId : String
  teamId : Option String
  deriving DecidableEq, Repr

/-- A team-membership row linking a user to a team. -/
structure TeamMembership where
  teamId : String
  userId : String
  deriving DecidableEq, Repr

/-- A query-collection row: belongs to exactly one workspace. -/
structure QueryCollection where
  id : String
  workspaceId : String
  deriving DecidableEq, Repr

/-- A `QueryItem` row. -/
structure QueryItem where
  id : String
  collectionId : String
  name : String
  queryVersion : Nat
  content : QueryContent
  deriving DecidableEq, Repr

/-- A `QueryItemRevision` row: a snapshot of a QueryItem's
(name, content, collectionId), stamped with the triggering user and a
creation timestamp. -/
structure QueryItemRevision where
  id : String
  queryItemId : String
  createdById : String
  name : String
  content : QueryContent
  collectionId : String
  createdAt : Nat
  deriving DecidableEq, Repr

/-- The plan configuration returned by `userService.getPlanConfig`; either
field may be unset. -/
structure PlanConfig where
  maxQueryCount : Option Nat
  queryRevisionLimit : Option Nat
  deriving DecidableEq, Repr

/-- Dto `CreateQueryDto`: `collectionId`/`name` as strings (empty string models a
JS-falsy value), `content` possibly absent. -/
structure CreateQueryDto where
  collectionId : String
  name : String
  content : Option QueryContent
  deriving DecidableEq, Repr

/-- Dto `UpdateQueryDto`: all fields optional; an absent field is left unchanged
by Prisma's `updateMany`. -/
structure UpdateQueryDto where
  name : Option String
  collectionId : Option String
  content : Option QueryContent
  deriving DecidableEq, Repr

/-- The exceptions thrown by the service: `BadRequestException`,
`NotFoundException`, and `InvalidRequestException(code)`. -/
inductive ApiError where
  | badRequest
  | notFound
  | invalidRequest (code : String)
  deriving DecidableEq, Repr

/-- The whole observable state: the database tables, the plan-config lookup
table of the user service, an id/clock source for generated rows, the emitted
events, and a counter of entries into `addQueryRevision`. -/
structure Db where
  workspaces : List Workspace
  memberships : List TeamMembership
  collections : List QueryCollection
  queryItems : List QueryItem
  revisions : List QueryItemRevision
  planConfigs : List (String × PlanConfig)
  nextId : Nat
  now : Nat
  events : List (String × String)
  revisionCalls : Nat
  deriving DecidableEq, Repr

/-- Resolve a collection's workspace and test `workspace.ownerId == userId`
(the inner part of both `where` builders). -/
def collectionOwnedBy (db : Db) (userId : String) (c : QueryCollection) : Bool :=
  match db.workspaces.find? (fun w => w.id == c.workspaceId) with
  | some w => w.ownerId == userId
  | none => false

/-- Test `workspace.team.TeamMemberships.some` for the user, from `ownerOrMemberWhere`. -/
def workspaceHasMember (db : Db) (userId : String) (w : Workspace) : Bool :=
  match w.teamId with
  | some t => db.memberships.any (fun m => m.teamId == t && m.userId == userId)
  | none => false

/-- Predicate `ownerWhere(userId)` compiled to a test on a QueryItem row:
collection → workspace → ownerId == userId. -/
def ownerWhere (db : Db) (userId : String) (q : QueryItem) : Bool :=
  match db.collections.find? (fun c => c.id == q.collectionId) with
  | some c => collectionOwnedBy db userId c
  | none => false

/-- Predicate `ownerOrMemberWhere(userId)` compiled to a test on a QueryItem row:
the collection's workspace is owned by the user OR the workspace's team has a
membership for the user. -/
def ownerOrMemberWhere (db : Db) (userId : String) (q : QueryItem) : Bool :=
  match db.collections.find? (fun c => c.id == q.collectionId) with
  | some c =>
    match db.workspaces.find? (fun w => w.id == c.workspaceId) with
    | some w => w.ownerId == userId || workspaceHasMember db userId w
    | none => false
  | none => false

/-- Lookup `userService.getPlanConfig(userId)` (via the service's private
`getPlanConfig`). -/
def getPlanConfig (db : Db) (userId : String) : Option PlanConfig :=
  (db.planConfigs.find? (fun p => p.1 == userId)).map (fun p => p.2)

/-- Resolution `userPlanConfig?.maxQueryCount ?? 0` from `create`. -/
def resolveMaxDocumentCount (db : Db) (userId : String) : Nat :=
  ((getPlanConfig db userId).bind (fun c => c.maxQueryCount)).getD 0

/-- Resolution `userPlanConfig?.queryRevisionLimit ?? DEFAULT_QUERY_REVISION_LIMIT`
from `addQueryRevision`. -/
def resolveMaxRevisionCount (db : Db) (userId : String) : Nat :=
  ((getPlanConfig db userId).bind (fun c => c.queryRevisionLimit)).getD
    DEFAULT_QUERY_REVISION_LIMIT

/-- The `queryItem.count` in `create`: items whose collection's workspace is
owned by the user. -/
def ownedQueryCount (db : Db) (userId : String) : Nat :=
  (db.queryItems.filter (fun q => ownerWhere db userId q)).length

/-- Negation of the `BadRequestException` guard in `create`:
`collectionId`, `name`, `content` and `content.query` truthy and
`content.version === 1`. -/
def validDto (dto : CreateQueryDto) : Bool :=
  !(dto.collectionId == "") && !(dto.name == "") &&
    (match dto.content with
     | none => false
     | some content => !(content.query == "") && content.version == 1)

/-- Operation `findOne(userId, id)`: first QueryItem matching the id under the
owner-or-member scope; throws `NotFoundException` when there is none. -/
def findOne (db : Db) (userId id : String) : Except ApiError QueryItem :=
  match db.queryItems.find? (fun q => q.id == id && ownerOrMemberWhere db userId q) with
  | some q => Except.ok q
  | none => Except.error ApiError.notFound

/-- Lookup `queryItemRevision.findFirst` ordered by createdAt ascending, over an
explicit row list: the first row with minimal `createdAt`. -/
def oldestRevision : List QueryItemRevision → Option QueryItemRevision
  | [] => none
  | r :: rs => some (rs.foldl (fun acc x => if x.createdAt < acc.createdAt then x else acc) r)

/-- Emission `eventService.emit(EVENTS.QUERY_UPDATE, ...)` carrying the id. -/
def emitEvent (db : Db) (id : String) : Db :=
  { db with events := db.events ++ [(QUERY_UPDATE_EVENT, id)] }

/-- The tail of `addQueryRevision` after the snapshot insert: count the
item's revisions and, when the count exceeds the limit, delete the single
oldest one (by earliest `createdAt`, via the unique-id `delete`). -/
def evictOldest (queryId : String) (limit : Nat) (rev : QueryItemRevision) (db1 : Db) :
    Except ApiError QueryItemRevision × Db :=
  if (db1.revisions.filter (fun r => r.queryItemId == queryId)).length > limit then
    match oldestRevision (db1.revisions.filter (fun r => r.queryItemId == queryId)) with
    | some oldest =>
      (Except.ok rev,
       { db1 with revisions := db1.revisions.eraseP (fun r => r.id == oldest.id) })
    | none => (Except.error ApiError.notFound, db1)
  else
    (Except.ok rev, db1)

/-- The private `addQueryRevision(userId, queryId)`: resolve the revision
limit, load the item through the scoped `findOne` (throws NotFound when the
item is not visible), insert a snapshot revision, then run the eviction
step.  Entering the method bumps `revisionCalls`. -/
def addQueryRevision (db : Db) (userId queryId : String) :
    Except ApiError QueryItemRevision × Db :=
  let db0 : Db := { db with revisionCalls := db.revisionCalls + 1 }
  let limit := resolveMaxRevisionCount db0 userId
  match findOne db0 userId queryId with
  | Except.error e => (Except.error e, db0)
  | Except.ok query =>
    let rev : QueryItemRevision :=
      { id := toString db0.nextId
        queryItemId := queryId
        createdById := userId
        name := query.name
        content := query.content
        collectionId := query.collectionId
        createdAt := db0.now }
    let db1 : Db :=
      { db0 with
        revisions := db0.revisions ++ [rev]
        nextId := db0.nextId + 1
        now := db0.now + 1 }
    evictOldest queryId limit rev db1

/-- The tail of `create` after the item insert: propagate a revision-step
failure, otherwise emit the notification keyed by the new item's id and
return the item. -/
def createFinish (item : QueryItem) (p : Except ApiError QueryItemRevision × Db) :
    Except ApiError QueryItem × Db :=
  match p.1 with
  | Except.error e => (Except.error e, p.2)
  | Except.ok _ => (Except.ok item, emitEvent p.2 item.id)

/-- Operation `create(userId, dto)`: quota check against the owner-scoped count, dto
validation, collection-ownership check, item insert, revision bookkeeping,
then the change notification. -/
def create (db : Db) (userId : String) (dto : CreateQueryDto) :
    Except ApiError QueryItem × Db :=
  if ownedQueryCount db userId ≥ resolveMaxDocumentCount db userId then
    (Except.error (ApiError.invalidRequest "ERR_MAX_QUERY_COUNT"), db)
  else if !(validDto dto) then
    (Except.error ApiError.badRequest, db)
  else if (db.collections.filter
      (fun c => c.id == dto.collectionId && collectionOwnedBy db userId c)).isEmpty then
    (Except.error (ApiError.invalidRequest "ERR_PERM_DENIED"), db)
  else
    let content := dto.content.getD { version := 1, query := "" }
    let item : QueryItem :=
      { id := toString db.nextId
        collectionId := dto.collectionId
        name := dto.name
        queryVersion := content.version
        content := content }
    let db1 : Db := { db with queryItems := db.queryItems ++ [item], nextId := db.nextId + 1 }
    createFinish item (addQueryRevision db1 userId item.id)

/-- The number of rows matched by `update`'s scoped bulk `updateMany`
(`res.count`). -/
def matchedCount (db : Db) (userId id : String) : Nat :=
  (db.queryItems.filter (fun q => q.id == id && ownerOrMemberWhere db userId q)).length

/-- Apply the `data` object of `updateMany` to one row: absent dto fields
leave the row's field unchanged. -/
def applyUpdateDto (dto : UpdateQueryDto) (q : QueryItem) : QueryItem :=
  { q with
    name := dto.name.getD q.name
    collectionId := dto.collectionId.getD q.collectionId
    content := dto.content.getD q.content }

/-- The row list produced by `update`'s scoped bulk `updateMany`: every row
matching the id under the owner-or-member scope gets the dto applied. -/
def updatedItems (db : Db) (userId id : String) (dto : UpdateQueryDto) : List QueryItem :=
  db.queryItems.map
    (fun q => if q.id == id && ownerOrMemberWhere db userId q then applyUpdateDto dto q else q)

/-- Operation `update(userId, id, dto)`: scoped bulk update, notification only when a
row was affected, then revision bookkeeping in every case. -/
def update (db : Db) (userId id : String) (dto : UpdateQueryDto) :
    Except ApiError Nat × Db :=
  let cnt := matchedCount db userId id
  let db1 : Db := { db with queryItems := updatedItems db userId id dto }
  let db2 := if cnt != 0 then emitEvent db1 id else db1
  let p := addQueryRevision db2 userId id
  match p.1 with
  | Except.error e => (Except.error e, p.2)
  | Except.ok _ => (Except.ok cnt, p.2)

/-- The number of rows matched by `remove`'s scoped bulk `deleteMany`. -/
def removeMatchedCount (db : Db) (userId id : String) : Nat :=
  (db.queryItems.filter (fun q => q.id == id && ownerWhere db userId q)).length

/-- The row list left by `remove`'s owner-scoped bulk `deleteMany`. -/
def remainingItems (db : Db) (userId id : String) : List QueryItem :=
  db.queryItems.filter (fun q => !(q.id == id && ownerWhere db userId q))

/-- Operation `remove(userId, id)`: owner-scoped bulk delete, notification only when a
row was affected.  No revision bookkeeping. -/
def remove (db : Db) (userId id : String) : Except ApiError Nat × Db :=
  let cnt := removeMatchedCount db userId id
  let db1 : Db := { db with queryItems := remainingItems db userId id }
  let db2 := if cnt != 0 then emitEvent db1 id else db1
  (Except.ok cnt, db2)

/-- The row list produced by `restoreRevision`'s unscoped unique-id
`queryItem.update`: the row with the revision's parent id gets the
revision's (name, content, collectionId). -/
def restoredItems (db : Db) (revision : QueryItemRevision) : List QueryItem :=
  db.queryItems.map
    (fun q => if q.id == revision.queryItemId then
        { q with
          name := revision.name
          content := revision.content
          collectionId := revision.collectionId }
      else q)

/-- Operation `restoreRevision(userId, revisionId)`: load the revision by unique id
(NotFound when absent), access-check the parent item through the scoped
`findOne`, then overwrite the item's (name, content, collectionId) with the
revision's values by unscoped unique-id update.  No revision bookkeeping and
no notification. -/
def restoreRevision (db : Db) (userId revisionId : String) :
    Except ApiError QueryItem × Db :=
  match db.revisions.find? (fun r => r.id == revisionId) with
  | none => (Except.error ApiError.notFound, db)
  | some revision =>
    match findOne db userId revision.queryItemId with
    | Except.error e => (Except.error e, db)
    | Except.ok _ =>
      let db1 : Db := { db with queryItems := restoredItems db revision }
      match db1.queryItems.find? (fun q => q.id == revision.queryItemId) with
      | some q => (Except.ok q, db1)
      | none => (Except.error ApiError.notFound, db1)

/-- Operation `findAll(userId)`: all items under the owner-or-member scope. -/
def findAll (db : Db) (userId : String) : List QueryItem :=
  db.queryItems.filter (fun q => ownerOrMemberWhere db userId q)

/-- The `validCollection` check of `create` seen through the same
`find?`-based collection lookup used by the scope predicates: the first
collection with the dto's id is owned by the user's workspace. -/
def ownsCollection (db : Db) (userId cid : String) : Bool :=
  match db.collections.find? (fun c => c.id == cid) with
  | some c => collectionOwnedBy db userId c
  | none => false

/-- Some QueryItem row with this id is visible to the user under the
owner-or-member scope (exactly the condition under which `findOne`
succeeds). -/
def itemVisible (db : Db) (userId id : String) : Bool :=
  db.queryItems.any (fun q => q.id == id && ownerOrMemberWhere db userId q)

/-- No QueryItem row with this id is visible to the user under the
owner-or-member scope. -/
def outsideOwnerOrMember (db : Db) (userId id : String) : Bool :=
  db.queryItems.all (fun q => !(q.id == id) || !(ownerOrMemberWhere db userId q))

/-- No QueryItem row with this id is owned by the user's workspace. -/
def outsideOwner (db : Db) (userId id : String) : Bool :=
  db.queryItems.all (fun q => !(q.id == id) || !(ownerWhere db userId q))

/-- Iterated sequential `create` calls with a fixed user and dto; the state
after `k` calls (each call's state is kept whether it succeeded or threw). -/
def createIter (db : Db) (userId : String) (dto : CreateQueryDto) : Nat → Db
  | 0 => db
  | k + 1 => (create (createIter db userId dto k) userId dto).2

/-! ### Basic lemmas about the embedded operations -/

theorem ownerWhere_congr {db db' : Db} (u : String) (q : QueryItem)
    (hc : db'.collections = db.collections) (hw : db'.workspaces = db.workspaces) :
    ownerWhere db' u q = ownerWhere db u q := by
  simp only [ownerWhere, collectionOwnedBy, hc, hw]

theorem ownerOrMemberWhere_congr {db db' : Db} (u : String) (q : QueryItem)
    (hc : db'.collections = db.collections) (hw : db'.workspaces = db.workspaces)
    (hm : db'.memberships = db.memberships) :
    ownerOrMemberWhere db' u q = ownerOrMemberWhere db u q := by
  simp only [ownerOrMemberWhere, workspaceHasMember, hc, hw, hm]

theorem resolveMaxRevisionCount_congr {db db' : Db} (u : String)
    (hp : db'.planConfigs = db.planConfigs) :
    resolveMaxRevisionCount db' u = resolveMaxRevisionCount db u := by
  simp only [resolveMaxRevisionCount, getPlanConfig, hp]

theorem resolveMaxDocumentCount_congr {db db' : Db} (u : String)
    (hp : db'.planConfigs = db.planConfigs) :
    resolveMaxDocumentCount db' u = resolveMaxDocumentCount db u := by
  simp only [resolveMaxDocumentCount, getPlanConfig, hp]

theorem ownsCollection_congr {db db' : Db} (u cid : String)
    (hc : db'.collections = db.collections) (hw : db'.workspaces = db.workspaces) :
    ownsCollection db' u cid = ownsCollection db u cid := by
  simp only [ownsCollection, collectionOwnedBy, hc, hw]

/-- Lemma: `findOne` succeeds exactly on a visible item. -/
theorem findOne_ok_of_visible {db : Db} {u i : String} (h : itemVisible db u i = true) :
    ∃ q, findOne db u i = Except.ok q ∧ q ∈ db.queryItems ∧
      (q.id == i && ownerOrMemberWhere db u q) = true := by
  unfold itemVisible at h
  unfold findOne
  cases hf : db.queryItems.find? (fun q => q.id == i && ownerOrMemberWhere db u q) with
  | none =>
    rw [List.find?_eq_none] at hf
    rcases List.any_eq_true.mp h with ⟨q, hq, hpq⟩
    exact absurd hpq (hf q hq)
  | some q =>
    have hq := List.find?_some hf
    exact ⟨q, rfl, List.mem_of_find?_eq_some hf, hq⟩

/-- Lemma: `findOne` throws NotFound when no row with the id is in scope. -/
theorem findOne_notFound_of_outside {db : Db} {u i : String}
    (h : outsideOwnerOrMember db u i = true) :
    findOne db u i = Except.error ApiError.notFound := by
  unfold outsideOwnerOrMember at h
  unfold findOne
  cases hf : db.queryItems.find? (fun q => q.id == i && ownerOrMemberWhere db u q) with
  | none => rfl
  | some q =>
    have hq := List.find?_some hf
    have hmem := List.mem_of_find?_eq_some hf
    have := (List.all_eq_true.mp h) q hmem
    simp only [Bool.and_eq_true] at hq
    simp only [Bool.or_eq_true, Bool.not_eq_true'] at this
    rcases this with h1 | h1
    · rw [hq.1] at h1; cases h1
    · rw [hq.2] at h1; cases h1

/-- An item owned by the user's workspace is also in the owner-or-member
scope. -/
theorem ownerOrMemberWhere_of_ownerWhere {db : Db} {u : String} {q : QueryItem}
    (h : ownerWhere db u q = true) : ownerOrMemberWhere db u q = true := by
  unfold ownerWhere collectionOwnedBy at h
  unfold ownerOrMemberWhere
  cases hc : db.collections.find? (fun c => c.id == q.collectionId) with
  | none => simp only [hc] at h; simp at h
  | some c =>
    simp only [hc] at h ⊢
    cases hw : db.workspaces.find? (fun w => w.id == c.workspaceId) with
    | none => simp only [hw] at h; simp at h
    | some w =>
      simp only [hw] at h ⊢
      simp [h]

/-- Outside the owner-or-member scope implies outside the owner-only scope. -/
theorem outsideOwner_of_outsideOwnerOrMember {db : Db} {u i : String}
    (h : outsideOwnerOrMember db u i = true) : outsideOwner db u i = true := by
  unfold outsideOwnerOrMember at h
  unfold outsideOwner
  rw [List.all_eq_true] at h ⊢
  intro q hq
  have := h q hq
  simp only [Bool.or_eq_true, Bool.not_eq_true'] at this ⊢
  rcases this with h1 | h1
  · exact Or.inl h1
  · refine Or.inr ?_
    cases h2 : ownerWhere db u q with
    | false => rfl
    | true => rw [ownerOrMemberWhere_of_ownerWhere h2] at h1; cases h1

/-! ### State-preservation facts about `evictOldest` and `addQueryRevision` -/

theorem evictOldest_queryItems (i : String) (L : Nat) (rev : QueryItemRevision) (db1 : Db) :
    (evictOldest i L rev db1).2.queryItems = db1.queryItems := by
  unfold evictOldest
  split
  · split
    · rfl
    · rfl
  · rfl

theorem evictOldest_collections (i : String) (L : Nat) (rev : QueryItemRevision) (db1 : Db) :
    (evictOldest i L rev db1).2.collections = db1.collections := by
  unfold evictOldest
  split
  · split
    · rfl
    · rfl
  · rfl

theorem evictOldest_workspaces (i : String) (L : Nat) (rev : QueryItemRevision) (db1 : Db) :
    (evictOldest i L rev db1).2.workspaces = db1.workspaces := by
  unfold evictOldest
  split
  · split
    · rfl
    · rfl
  · rfl

theorem evictOldest_memberships (i : String) (L : Nat) (rev : QueryItemRevision) (db1 : Db) :
    (evictOldest i L rev db1).2.memberships = db1.memberships := by
  unfold evictOldest
  split
  · split
    · rfl
    · rfl
  · rfl

theorem evictOldest_planConfigs (i : String) (L : Nat) (rev : QueryItemRevision) (db1 : Db) :
    (evictOldest i L rev db1).2.planConfigs = db1.planConfigs := by
  unfold evictOldest
  split
  · split
    · rfl
    · rfl
  · rfl

theorem evictOldest_events (i : String) (L : Nat) (rev : QueryItemRevision) (db1 : Db) :
    (evictOldest i L rev db1).2.events = db1.events := by
  unfold evictOldest
  split
  · split
    · rfl
    · rfl
  · rfl

theorem evictOldest_revisionCalls (i : String) (L : Nat) (rev : QueryItemRevision) (db1 : Db) :
    (evictOldest i L rev db1).2.revisionCalls = db1.revisionCalls := by
  unfold evictOldest
  split
  · split
    · rfl
    · rfl
  · rfl

theorem evictOldest_nextId (i : String) (L : Nat) (rev : QueryItemRevision) (db1 : Db) :
    (evictOldest i L rev db1).2.nextId = db1.nextId := by
  unfold evictOldest
  split
  · split
    · rfl
    · rfl
  · rfl

theorem evictOldest_now (i : String) (L : Nat) (rev : QueryItemRevision) (db1 : Db) :
    (evictOldest i L rev db1).2.now = db1.now := by
  unfold evictOldest
  split
  · split
    · rfl
    · rfl
  · rfl

theorem addQueryRevision_queryItems (db : Db) (u i : String) :
    (addQueryRevision db u i).2.queryItems = db.queryItems := by
  simp only [addQueryRevision]
  split
  · rfl
  · rw [evictOldest_queryItems]

theorem addQueryRevision_collections (db : Db) (u i : String) :
    (addQueryRevision db u i).2.collections = db.collections := by
  simp only [addQueryRevision]
  split
  · rfl
  · rw [evictOldest_collections]

theorem addQueryRevision_workspaces (db : Db) (u i : String) :
    (addQueryRevision db u i).2.workspaces = db.workspaces := by
  simp only [addQueryRevision]
  split
  · rfl
  · rw [evictOldest_workspaces]

theorem addQueryRevision_memberships (db : Db) (u i : String) :
    (addQueryRevision db u i).2.memberships = db.memberships := by
  simp only [addQueryRevision]
  split
  · rfl
  · rw [evictOldest_memberships]

theorem addQueryRevision_planConfigs (db : Db) (u i : String) :
    (addQueryRevision db u i).2.planConfigs = db.planConfigs := by
  simp only [addQueryRevision]
  split
  · rfl
  · rw [evictOldest_planConfigs]

theorem addQueryRevision_events (db : Db) (u i : String) :
    (addQueryRevision db u i).2.events = db.events := by
  simp only [addQueryRevision]
  split
  · rfl
  · rw [evictOldest_events]

/-- Entering `addQueryRevision` bumps the invocation counter exactly once,
also when the scoped load throws. -/
theorem addQueryRevision_revisionCalls (db : Db) (u i : String) :
    (addQueryRevision db u i).2.revisionCalls = db.revisionCalls + 1 := by
  simp only [addQueryRevision]
  split
  · rfl
  · rw [evictOldest_revisionCalls]

/-- When no row with the id is in the caller's owner-or-member scope,
`addQueryRevision` throws NotFound and leaves everything except the
invocation counter untouched. -/
theorem addQueryRevision_outside (db : Db) (u i : String)
    (h : outsideOwnerOrMember db u i = true) :
    addQueryRevision db u i =
      (Except.error ApiError.notFound, { db with revisionCalls := db.revisionCalls + 1 }) := by
  have hfo : findOne { db with revisionCalls := db.revisionCalls + 1 } u i =
      Except.error ApiError.notFound := findOne_notFound_of_outside h
  simp only [addQueryRevision, hfo]

/-- Pointwise consequence of `outsideOwnerOrMember`: no row passes the
scoped-update filter. -/
theorem outside_pred {db : Db} {u i : String} {q : QueryItem} (hq : q ∈ db.queryItems)
    (h : outsideOwnerOrMember db u i = true) :
    (q.id == i && ownerOrMemberWhere db u q) = false := by
  have hx := List.all_eq_true.mp h q hq
  rw [← Bool.not_and, Bool.not_eq_true'] at hx
  exact hx

/-- Pointwise consequence of `outsideOwner`: no row passes the owner-scoped
filter. -/
theorem outside_owner_pred {db : Db} {u i : String} {q : QueryItem} (hq : q ∈ db.queryItems)
    (h : outsideOwner db u i = true) :
    (q.id == i && ownerWhere db u q) = false := by
  have hx := List.all_eq_true.mp h q hq
  rw [← Bool.not_and, Bool.not_eq_true'] at hx
  exact hx

theorem matchedCount_eq_zero_of_outside {db : Db} {u i : String}
    (h : outsideOwnerOrMember db u i = true) : matchedCount db u i = 0 := by
  unfold matchedCount
  rw [List.length_eq_zero, List.filter_eq_nil_iff]
  intro q hq
  simp [outside_pred hq h]

theorem removeMatchedCount_eq_zero_of_outside {db : Db} {u i : String}
    (h : outsideOwner db u i = true) : removeMatchedCount db u i = 0 := by
  unfold removeMatchedCount
  rw [List.length_eq_zero, List.filter_eq_nil_iff]
  intro q hq
  simp [outside_owner_pred hq h]

theorem updatedItems_of_outside {db : Db} {u i : String} (dto : UpdateQueryDto)
    (h : outsideOwnerOrMember db u i = true) :
    updatedItems db u i dto = db.queryItems := by
  unfold updatedItems
  conv_rhs => rw [← List.map_id db.queryItems]
  apply List.map_congr_left
  intro q hq
  simp [outside_pred hq h]

theorem remainingItems_of_outside {db : Db} {u i : String}
    (h : outsideOwner db u i = true) :
    remainingItems db u i = db.queryItems := by
  unfold remainingItems
  apply List.filter_eq_self.mpr
  intro q hq
  simp [outside_owner_pred hq h]

/-- For a user outside the owner-or-member scope of the id, `update` changes
no row, emits nothing, and surfaces NotFound from the revision step. -/
theorem update_outside (db : Db) (u i : String) (dto : UpdateQueryDto)
    (h : outsideOwnerOrMember db u i = true) :
    update db u i dto =
      (Except.error ApiError.notFound, { db with revisionCalls := db.revisionCalls + 1 }) := by
  have hmc := matchedCount_eq_zero_of_outside h
  have hitems := updatedItems_of_outside dto h
  have heta : ({ db with queryItems := db.queryItems } : Db) = db := rfl
  simp only [update, hmc, hitems, heta, bne_self_eq_false, if_false, Bool.false_eq_true,
    addQueryRevision_outside db u i h]

/-- For a user outside the owner-only scope of the id, `remove` is a no-op
returning count 0. -/
theorem remove_outside (db : Db) (u i : String)
    (h : outsideOwner db u i = true) :
    remove db u i = (Except.ok 0, db) := by
  have hmc := removeMatchedCount_eq_zero_of_outside h
  have hitems := remainingItems_of_outside h
  have heta : ({ db with queryItems := db.queryItems } : Db) = db := rfl
  simp only [remove, hmc, hitems, heta, bne_self_eq_false, if_false, Bool.false_eq_true]

/-- The state returned by `update` is the state of the revision step applied
after the (conditional) notification. -/
theorem update_snd (db : Db) (u i : String) (dto : UpdateQueryDto) :
    (update db u i dto).2 =
      (addQueryRevision
        (if matchedCount db u i != 0
          then emitEvent { db with queryItems := updatedItems db u i dto } i
          else { db with queryItems := updatedItems db u i dto }) u i).2 := by
  simp only [update]
  generalize addQueryRevision _ u i = p
  rcases p with ⟨r, s⟩
  cases r <;> rfl

/-! ### Example rows used by the closed witnesses and counterexamples -/

/-- A well-formed content payload (version 1, non-empty query). -/
def sampleContent : QueryContent := { version := 1, query := "query me" }

/-- Two disjoint tenants with no team memberships: `u1` owns workspace `w1`
(collection `c1`, item `q1`), `u2` owns workspace `w2` (collection `c2`,
item `q2`).  Only `u1` has a plan (5 documents, 2 revisions). -/
def twoTenantDb : Db :=
  { workspaces := [{ id := "w1", ownerId := "u1", teamId := none },
                   { id := "w2", ownerId := "u2", teamId := none }]
    memberships := []
    collections := [{ id := "c1", workspaceId := "w1" },
                    { id := "c2", workspaceId := "w2" }]
    queryItems := [{ id := "q1", collectionId := "c1", name := "alpha", queryVersion := 1,
                     content := sampleContent },
                   { id := "q2", collectionId := "c2", name := "beta", queryVersion := 1,
                     content := sampleContent }]
    revisions := []
    planConfigs := [("u1", { maxQueryCount := some 5, queryRevisionLimit := some 2 })]
    nextId := 0
    now := 0
    events := []
    revisionCalls := 0 }

/-! ### Claim theorems -/

/-- C8: the Quota Policy resolution yields `maxDocumentCount = 0` whenever
the plan configuration is absent or its `maxQueryCount` field is unset, and
— independently — `maxRevisionCount = 10` whenever the plan configuration is
absent or its `queryRevisionLimit` field is unset.  Each default holds under
its own condition alone; the other field may be set or unset. -/
theorem quota_policy_defaults (db : Db) (u : String) :
    ((getPlanConfig db u = none ∨
        ∃ c, getPlanConfig db u = some c ∧ c.maxQueryCount = none) →
      resolveMaxDocumentCount db u = 0) ∧
    ((getPlanConfig db u = none ∨
        ∃ c, getPlanConfig db u = some c ∧ c.queryRevisionLimit = none) →
      resolveMaxRevisionCount db u = 10) := by
  constructor
  · intro hdoc
    rcases hdoc with h | ⟨c, h, hc⟩
    · simp [resolveMaxDocumentCount, h]
    · simp [resolveMaxDocumentCount, h, hc]
  · intro hrev
    rcases hrev with h | ⟨c, h, hc⟩
    · simp [resolveMaxRevisionCount, h, DEFAULT_QUERY_REVISION_LIMIT]
    · simp [resolveMaxRevisionCount, h, hc, DEFAULT_QUERY_REVISION_LIMIT]

/-- Plan table with exactly one field unset per user: `u5` has
`maxQueryCount` unset but `queryRevisionLimit` set, `u6` the reverse;
`u7` has no plan at all. -/
def partialPlanDb : Db :=
  { workspaces := []
    memberships := []
    collections := []
    queryItems := []
    revisions := []
    planConfigs := [("u5", { maxQueryCount := none, queryRevisionLimit := some 7 }),
                    ("u6", { maxQueryCount := some 3, queryRevisionLimit := none })]
    nextId := 0
    now := 0
    events := []
    revisionCalls := 0 }

theorem quota_policy_defaults_witness :
    resolveMaxDocumentCount partialPlanDb "u5" = 0 ∧
    resolveMaxRevisionCount partialPlanDb "u6" = 10 ∧
    resolveMaxDocumentCount partialPlanDb "u7" = 0 ∧
    resolveMaxRevisionCount partialPlanDb "u7" = 10 :=
  ⟨(quota_policy_defaults partialPlanDb "u5").1
      (Or.inr ⟨{ maxQueryCount := none, queryRevisionLimit := some 7 }, rfl, rfl⟩),
    (quota_policy_defaults partialPlanDb "u6").2
      (Or.inr ⟨{ maxQueryCount := some 3, queryRevisionLimit := none }, rfl, rfl⟩),
    (quota_policy_defaults partialPlanDb "u7").1 (Or.inl rfl),
    (quota_policy_defaults partialPlanDb "u7").2 (Or.inl rfl)⟩

/-- C10: the revision-recording step loads its snapshot through the scoped
`findOne`, so for a QueryItem outside the caller's owner-or-member scope it
throws NotFound before any insert and the revision table is unchanged. -/
theorem revision_tenancy_isolation (db : Db) (u qid : String)
    (h : outsideOwnerOrMember db u qid = true) :
    (addQueryRevision db u qid).1 = Except.error ApiError.notFound ∧
    (addQueryRevision db u qid).2.revisions = db.revisions := by
  rw [addQueryRevision_outside db u qid h]
  exact ⟨rfl, rfl⟩

theorem revision_tenancy_isolation_witness :
    (addQueryRevision twoTenantDb "u2" "q1").1 = Except.error ApiError.notFound ∧
    (addQueryRevision twoTenantDb "u2" "q1").2.revisions = twoTenantDb.revisions :=
  revision_tenancy_isolation twoTenantDb "u2" "q1" (by decide)

/-- C9: for a user outside the owner-or-member scope (resp. outside the
owner-only scope for `remove`), `findOne` throws NotFound, `update` changes
no row, emits nothing and surfaces NotFound, and `remove` is a no-op with
count 0 — even when the id names a row of another tenant. -/
theorem outside_scope_not_found_noop (db : Db) (u i : String) (dto : UpdateQueryDto)
    (h1 : outsideOwnerOrMember db u i = true)
    (h2 : outsideOwner db u i = true) :
    findOne db u i = Except.error ApiError.notFound ∧
    ((update db u i dto).1 = Except.error ApiError.notFound ∧
      (update db u i dto).2.queryItems = db.queryItems ∧
      (update db u i dto).2.events = db.events ∧
      (update db u i dto).2.revisions = db.revisions) ∧
    ((remove db u i).1 = Except.ok 0 ∧
      (remove db u i).2.queryItems = db.queryItems ∧
      (remove db u i).2.events = db.events) := by
  refine ⟨findOne_notFound_of_outside h1, ?_, ?_⟩
  · rw [update_outside db u i dto h1]
    exact ⟨rfl, rfl, rfl, rfl⟩
  · rw [remove_outside db u i h2]
    exact ⟨rfl, rfl, rfl⟩

theorem outside_scope_not_found_noop_witness :
    findOne twoTenantDb "u2" "q1" = Except.error ApiError.notFound ∧
    ((update twoTenantDb "u2" "q1" { name := some "x", collectionId := none, content := none }).1
        = Except.error ApiError.notFound ∧
      (update twoTenantDb "u2" "q1" { name := some "x", collectionId := none, content := none }).2.queryItems
        = twoTenantDb.queryItems ∧
      (update twoTenantDb "u2" "q1" { name := some "x", collectionId := none, content := none }).2.events
        = twoTenantDb.events ∧
      (update twoTenantDb "u2" "q1" { name := some "x", collectionId := none, content := none }).2.revisions
        = twoTenantDb.revisions) ∧
    ((remove twoTenantDb "u2" "q1").1 = Except.ok 0 ∧
      (remove twoTenantDb "u2" "q1").2.queryItems = twoTenantDb.queryItems ∧
      (remove twoTenantDb "u2" "q1").2.events = twoTenantDb.events) :=
  outside_scope_not_found_noop twoTenantDb "u2" "q1"
    { name := some "x", collectionId := none, content := none } (by decide) (by decide)

/-- Effects of `update` on the event log and the Revision Manager counter. -/
theorem update_effects (db : Db) (u i : String) (dto : UpdateQueryDto) :
    (update db u i dto).2.events =
      db.events ++ (if matchedCount db u i = 0 then [] else [(QUERY_UPDATE_EVENT, i)]) ∧
    (update db u i dto).2.revisionCalls = db.revisionCalls + 1 := by
  rw [update_snd]
  constructor
  · rw [addQueryRevision_events]
    by_cases h : matchedCount db u i = 0
    · simp [h, emitEvent]
    · simp [h, emitEvent]
  · rw [addQueryRevision_revisionCalls]
    by_cases h : matchedCount db u i = 0
    · simp [h, emitEvent]
    · simp [h, emitEvent]

/-- Effects of `remove` on the event log, the Revision Manager counter and
the revision table: notification only when a row matched, never any
revision bookkeeping. -/
theorem remove_effects (db : Db) (u i : String) :
    (remove db u i).2.events =
      db.events ++ (if removeMatchedCount db u i = 0 then [] else [(QUERY_UPDATE_EVENT, i)]) ∧
    (remove db u i).2.revisionCalls = db.revisionCalls ∧
    (remove db u i).2.revisions = db.revisions := by
  unfold remove
  by_cases h : removeMatchedCount db u i = 0
  · simp [h, emitEvent]
  · simp [h, emitEvent]

/-- Lemma: `restoreRevision` never touches the event log, the Revision Manager
counter or the revision table. -/
theorem restore_effects (db : Db) (u rid : String) :
    (restoreRevision db u rid).2.events = db.events ∧
    (restoreRevision db u rid).2.revisionCalls = db.revisionCalls ∧
    (restoreRevision db u rid).2.revisions = db.revisions := by
  unfold restoreRevision
  split
  · exact ⟨rfl, rfl, rfl⟩
  · split
    · exact ⟨rfl, rfl, rfl⟩
    · dsimp only
      split
      · exact ⟨rfl, rfl, rfl⟩
      · exact ⟨rfl, rfl, rfl⟩

/-- A successful `createFinish` returns the inserted item and the
post-notification state. -/
theorem createFinish_ok {item it2 : QueryItem} {p : Except ApiError QueryItemRevision × Db}
    (h : (createFinish item p).1 = Except.ok it2) :
    it2 = item ∧ (createFinish item p).2 = emitEvent p.2 item.id := by
  unfold createFinish at h ⊢
  rcases p with ⟨r, s⟩
  cases r with
  | error e => simp at h
  | ok v => exact ⟨by simpa using h.symm, rfl⟩

/-- On a successful `create`, exactly one notification keyed by the new
item's id is appended and the Revision Manager is entered exactly once. -/
theorem create_ok_effects {db : Db} {u : String} {dto : CreateQueryDto} {item : QueryItem}
    (h : (create db u dto).1 = Except.ok item) :
    (create db u dto).2.events = db.events ++ [(QUERY_UPDATE_EVENT, item.id)] ∧
    (create db u dto).2.revisionCalls = db.revisionCalls + 1 := by
  unfold create at h ⊢
  by_cases h1 : ownedQueryCount db u ≥ resolveMaxDocumentCount db u
  · rw [if_pos h1] at h; exact absurd h (by simp)
  · rw [if_neg h1] at h ⊢
    by_cases h2 : (!validDto dto) = true
    · rw [if_pos h2] at h; exact absurd h (by simp)
    · rw [if_neg h2] at h ⊢
      by_cases h3 : (db.collections.filter
          (fun c => c.id == dto.collectionId && collectionOwnedBy db u c)).isEmpty = true
      · rw [if_pos h3] at h; exact absurd h (by simp)
      · rw [if_neg h3] at h ⊢
        dsimp only at h ⊢
        obtain ⟨hitem, hsnd⟩ := createFinish_ok h
        rw [hsnd, hitem]
        refine ⟨?_, ?_⟩
        · simp only [emitEvent, addQueryRevision_events]
        · simp only [emitEvent, addQueryRevision_revisionCalls]

/-- Every row of the restored item list carrying the revision's parent id
holds the revision's (name, content, collectionId). -/
theorem restoredItems_fields (db : Db) (rev : QueryItemRevision) :
    ∀ q ∈ restoredItems db rev, q.id = rev.queryItemId →
      q.name = rev.name ∧ q.content = rev.content ∧ q.collectionId = rev.collectionId := by
  intro q hq hid
  unfold restoredItems at hq
  obtain ⟨q1, hq1, hfq⟩ := List.mem_map.mp hq
  by_cases hc : (q1.id == rev.queryItemId) = true
  · rw [if_pos hc] at hfq
    subst hfq
    exact ⟨rfl, rfl, rfl⟩
  · rw [if_neg hc] at hfq
    subst hfq
    exact absurd (beq_iff_eq.mpr hid) hc

/-- A well-formed content payload (version 1, non-empty query). -/
def sampleContent2 : QueryContent := { version := 1, query := "query you" }

/-- A dto that creates a well-formed item in `u1`'s own collection `c1`. -/
def createDtoW : CreateQueryDto :=
  { collectionId := "c1", name := "gamma", content := some sampleContent }

/-- The item `create twoTenantDb "u1" createDtoW` inserts (generated id 0). -/
def createdItemW : QueryItem :=
  { id := "0", collectionId := "c1", name := "gamma", queryVersion := 1,
    content := sampleContent }

/-- A malformed dto (empty name) pointing at `u2`'s collection `c2`, which
`u1` does not own. -/
def badDtoW : CreateQueryDto :=
  { collectionId := "c2", name := "", content := some sampleContent }

/-- A well-formed dto pointing at `u2`'s collection `c2`, which `u1` does
not own. -/
def foreignDtoW : CreateQueryDto :=
  { collectionId := "c2", name := "delta", content := some sampleContent }

/-- State `twoTenantDb` with one revision `r1` of item `q1` holding an older
(name, content, collectionId) snapshot. -/
def restoreDb : Db :=
  { twoTenantDb with
    revisions := [{ id := "r1", queryItemId := "q1", createdById := "u1",
                    name := "oldname", content := sampleContent2, collectionId := "c1",
                    createdAt := 0 }]
    nextId := 1
    now := 1 }

/-- C1 counterexample: on `restoreDb`, the restore succeeds (and sets the
item's fields) but the revision table and the Revision Manager counter are
unchanged — no new revision recording is triggered, refuting the claim's
"exactly one new revision recording". -/
theorem restore_triggers_no_recording_counterexample :
    ((restoreRevision restoreDb "u1" "r1").1).isOk = true ∧
    (restoreRevision restoreDb "u1" "r1").2.revisions = restoreDb.revisions ∧
    (restoreRevision restoreDb "u1" "r1").2.revisionCalls = restoreDb.revisionCalls ∧
    (restoreRevision restoreDb "u1" "r1").2.revisions.length ≠
      restoreDb.revisions.length + 1 := by
  refine ⟨rfl, rfl, rfl, by decide⟩

/-- C1 (amended): for a user with owner-or-member access to the revision's
parent item, `restoreRevision` succeeds and sets the parent QueryItem's
(name, content, collectionId) exactly to the snapshot's values, but it
triggers no revision recording at all: the revision table, the event log and
the Revision Manager counter are untouched. -/
theorem restore_sets_fields_no_recording (db : Db) (u rid : String)
    (rev : QueryItemRevision)
    (hrev : db.revisions.find? (fun r => r.id == rid) = some rev)
    (hvis : itemVisible db u rev.queryItemId = true) :
    ((restoreRevision db u rid).1).isOk = true ∧
    (∀ q ∈ (restoreRevision db u rid).2.queryItems, q.id = rev.queryItemId →
      q.name = rev.name ∧ q.content = rev.content ∧ q.collectionId = rev.collectionId) ∧
    (restoreRevision db u rid).2.revisions = db.revisions ∧
    (restoreRevision db u rid).2.events = db.events ∧
    (restoreRevision db u rid).2.revisionCalls = db.revisionCalls := by
  obtain ⟨q0, hfo, hmem0, hq0p⟩ := findOne_ok_of_visible hvis
  rw [Bool.and_eq_true] at hq0p
  unfold restoreRevision
  simp only [hrev, hfo]
  cases hfq : List.find? (fun q => q.id == rev.queryItemId) (restoredItems db rev) with
  | none =>
    exfalso
    rw [List.find?_eq_none] at hfq
    have hmem1 : (if q0.id == rev.queryItemId then
        { q0 with
          name := rev.name
          content := rev.content
          collectionId := rev.collectionId }
      else q0) ∈ restoredItems db rev := List.mem_map_of_mem _ hmem0
    rw [if_pos hq0p.1] at hmem1
    exact hfq _ hmem1 (by simpa using hq0p.1)
  | some q1 =>
    simp only [hfq]
    exact ⟨rfl, restoredItems_fields db rev, trivial, trivial, trivial⟩

theorem restore_sets_fields_no_recording_witness :
    ((restoreRevision restoreDb "u1" "r1").1).isOk = true ∧
    (∀ q ∈ (restoreRevision restoreDb "u1" "r1").2.queryItems, q.id = "q1" →
      q.name = "oldname" ∧ q.content = sampleContent2 ∧ q.collectionId = "c1") ∧
    (restoreRevision restoreDb "u1" "r1").2.revisions = restoreDb.revisions ∧
    (restoreRevision restoreDb "u1" "r1").2.events = restoreDb.events ∧
    (restoreRevision restoreDb "u1" "r1").2.revisionCalls = restoreDb.revisionCalls :=
  restore_sets_fields_no_recording restoreDb "u1" "r1"
    { id := "r1", queryItemId := "q1", createdById := "u1", name := "oldname",
      content := sampleContent2, collectionId := "c1", createdAt := 0 }
    rfl (by decide)

/-- C2 counterexample: `remove` on an owned item succeeds with one affected
row and emits the notification, yet performs no revision bookkeeping — the
revision table and the Revision Manager counter are unchanged — refuting
"every mutating entry point both triggers revision bookkeeping and emits". -/
theorem mutation_bookkeeping_counterexample :
    (remove twoTenantDb "u1" "q1").1 = Except.ok 1 ∧
    (remove twoTenantDb "u1" "q1").2.events =
      twoTenantDb.events ++ [(QUERY_UPDATE_EVENT, "q1")] ∧
    (remove twoTenantDb "u1" "q1").2.revisions = twoTenantDb.revisions ∧
    (remove twoTenantDb "u1" "q1").2.revisionCalls = twoTenantDb.revisionCalls :=
  ⟨rfl, rfl, rfl, rfl⟩

/-- C2 (amended): on success `create` both enters the Revision Manager once
and emits a notification keyed by the new item's id; `update` always enters
the Revision Manager once and emits exactly when a row was affected;
`remove` emits exactly when a row was affected but never performs revision
bookkeeping; `restoreRevision` performs neither revision bookkeeping nor any
notification. -/
theorem mutation_bookkeeping_per_entry_point (db : Db) (u i rid : String)
    (cdto : CreateQueryDto) (udto : UpdateQueryDto) :
    (∀ item : QueryItem, (create db u cdto).1 = Except.ok item →
      (create db u cdto).2.events = db.events ++ [(QUERY_UPDATE_EVENT, item.id)] ∧
      (create db u cdto).2.revisionCalls = db.revisionCalls + 1) ∧
    ((update db u i udto).2.events =
        db.events ++ (if matchedCount db u i = 0 then [] else [(QUERY_UPDATE_EVENT, i)]) ∧
      (update db u i udto).2.revisionCalls = db.revisionCalls + 1) ∧
    ((remove db u i).2.events =
        db.events ++ (if removeMatchedCount db u i = 0 then [] else [(QUERY_UPDATE_EVENT, i)]) ∧
      (remove db u i).2.revisionCalls = db.revisionCalls ∧
      (remove db u i).2.revisions = db.revisions) ∧
    ((restoreRevision db u rid).2.events = db.events ∧
      (restoreRevision db u rid).2.revisionCalls = db.revisionCalls ∧
      (restoreRevision db u rid).2.revisions = db.revisions) :=
  ⟨fun _ h => create_ok_effects h, update_effects db u i udto, remove_effects db u i,
    restore_effects db u rid⟩

theorem mutation_bookkeeping_per_entry_point_witness :
    (create twoTenantDb "u1" createDtoW).2.events =
      twoTenantDb.events ++ [(QUERY_UPDATE_EVENT, createdItemW.id)] ∧
    (create twoTenantDb "u1" createDtoW).2.revisionCalls =
      twoTenantDb.revisionCalls + 1 :=
  (mutation_bookkeeping_per_entry_point twoTenantDb "u1" "q1" "r0" createDtoW
    { name := some "x", collectionId := none, content := none }).1 createdItemW rfl

/-- C3 counterexample: `u1` passes the quota check (1 owned document,
limit 5), the dto names `u2`'s collection `c2` which `u1` does not own, and
the dto is malformed (empty name) — `create` fails with the validation
error, not with ERR_PERM_DENIED, refuting "regardless of dto validity". -/
theorem create_perm_denied_counterexample :
    validDto badDtoW = false ∧
    ownsCollection twoTenantDb "u1" badDtoW.collectionId = false ∧
    ownedQueryCount twoTenantDb "u1" < resolveMaxDocumentCount twoTenantDb "u1" ∧
    (create twoTenantDb "u1" badDtoW).1 = Except.error ApiError.badRequest ∧
    (create twoTenantDb "u1" badDtoW).1 ≠
      Except.error (ApiError.invalidRequest "ERR_PERM_DENIED") := by
  refine ⟨rfl, rfl, by decide, rfl, fun h => ApiError.noConfusion (Except.error.inj h)⟩

/-- C3 (amended): when the document-count quota check passes and the dto is
well-formed, `create` fails with ERR_PERM_DENIED whenever no collection with
the dto's id belongs to a workspace owned by the caller; a malformed dto
instead fails with the validation error before the ownership check. -/
theorem create_perm_denied_when_wellformed (db : Db) (u : String) (dto : CreateQueryDto)
    (hquota : ownedQueryCount db u < resolveMaxDocumentCount db u)
    (hv : validDto dto = true)
    (hnotowned : ∀ c ∈ db.collections, c.id = dto.collectionId →
      collectionOwnedBy db u c = false) :
    (create db u dto).1 = Except.error (ApiError.invalidRequest "ERR_PERM_DENIED") := by
  have hfilter : db.collections.filter
      (fun c => c.id == dto.collectionId && collectionOwnedBy db u c) = [] := by
    rw [List.filter_eq_nil_iff]
    intro c hc
    simp only [Bool.and_eq_true, not_and]
    intro hid
    rw [hnotowned c hc (eq_of_beq hid)]
    simp
  unfold create
  rw [if_neg (by omega), if_neg (by simp [hv]), if_pos (by rw [hfilter]; rfl)]

theorem create_perm_denied_when_wellformed_witness :
    (create twoTenantDb "u1" foreignDtoW).1 =
      Except.error (ApiError.invalidRequest "ERR_PERM_DENIED") :=
  create_perm_denied_when_wellformed twoTenantDb "u1" foreignDtoW (by decide) (by decide)
    (by decide)

/-- C7: `update` emits a change notification exactly when the scoped bulk
update affected at least one row, and the Revision Manager is entered exactly
once in every case, including when the update matched zero rows. -/
theorem update_notification_iff_and_revision_always (db : Db) (u i : String)
    (dto : UpdateQueryDto) :
    (update db u i dto).2.events =
      db.events ++ (if matchedCount db u i = 0 then [] else [(QUERY_UPDATE_EVENT, i)]) ∧
    (update db u i dto).2.revisionCalls = db.revisionCalls + 1 :=
  update_effects db u i dto

/-! ### The eviction step: oldest-revision selection -/

/-- The foldl used by `oldestRevision` returns an element of `acc :: rs`
whose `createdAt` is minimal. -/
theorem foldl_oldest_spec (rs : List QueryItemRevision) (acc : QueryItemRevision) :
    (rs.foldl (fun a x => if x.createdAt < a.createdAt then x else a) acc) ∈ acc :: rs ∧
    (rs.foldl (fun a x => if x.createdAt < a.createdAt then x else a) acc).createdAt ≤
      acc.createdAt ∧
    ∀ r ∈ rs,
      (rs.foldl (fun a x => if x.createdAt < a.createdAt then x else a) acc).createdAt ≤
        r.createdAt := by
  induction rs generalizing acc with
  | nil =>
    exact ⟨List.mem_cons_self acc [], Nat.le_refl _, fun r hr => absurd hr (List.not_mem_nil r)⟩
  | cons x xs ih =>
    simp only [List.foldl_cons]
    obtain ⟨hmem, hle, hall⟩ := ih (if x.createdAt < acc.createdAt then x else acc)
    have hacc : (if x.createdAt < acc.createdAt then x else acc).createdAt ≤ acc.createdAt := by
      by_cases hx : x.createdAt < acc.createdAt
      · rw [if_pos hx]; exact Nat.le_of_lt hx
      · rw [if_neg hx]
    have haccx : (if x.createdAt < acc.createdAt then x else acc).createdAt ≤ x.createdAt := by
      by_cases hx : x.createdAt < acc.createdAt
      · rw [if_pos hx]
      · rw [if_neg hx]; exact Nat.le_of_not_lt hx
    refine ⟨?_, Nat.le_trans hle hacc, ?_⟩
    · rcases List.mem_cons.mp hmem with h1 | h1
      · rw [h1]
        by_cases hx : x.createdAt < acc.createdAt
        · rw [if_pos hx]
          exact List.mem_cons_of_mem acc (List.mem_cons_self x xs)
        · rw [if_neg hx]
          exact List.mem_cons_self acc (x :: xs)
      · exact List.mem_cons_of_mem acc (List.mem_cons_of_mem x h1)
    · intro r hr
      rcases List.mem_cons.mp hr with h1 | h1
      · subst h1; exact Nat.le_trans hle haccx
      · exact hall r h1

/-- Lemma: `oldestRevision` returns a member with minimal `createdAt`. -/
theorem oldestRevision_spec {l : List QueryItemRevision} {d : QueryItemRevision}
    (h : oldestRevision l = some d) :
    d ∈ l ∧ ∀ r ∈ l, d.createdAt ≤ r.createdAt := by
  cases l with
  | nil => cases h
  | cons r rs =>
    unfold oldestRevision at h
    injection h with h
    subst h
    obtain ⟨hmem, hle, hall⟩ := foldl_oldest_spec rs r
    refine ⟨hmem, ?_⟩
    intro s hs
    rcases List.mem_cons.mp hs with h1 | h1
    · subst h1; exact hle
    · exact hall s h1

/-- Lemma: `oldestRevision` succeeds on every non-empty row list. -/
theorem oldestRevision_some {l : List QueryItemRevision} (h : l ≠ []) :
    ∃ d, oldestRevision l = some d := by
  cases l with
  | nil => exact absurd rfl h
  | cons r rs => exact ⟨_, rfl⟩

/-- Deleting by the unique id of a member `d` removes exactly `d` (first
occurrence), as the store's `delete({where: {id}})` does. -/
theorem eraseP_id_eq_erase {l : List QueryItemRevision} {d : QueryItemRevision}
    (hd : d ∈ l) (hnodup : (l.map (fun r => r.id)).Nodup) :
    l.eraseP (fun r => r.id == d.id) = l.erase d := by
  induction l with
  | nil => cases hd
  | cons x xs ih =>
    rw [List.map_cons, List.nodup_cons] at hnodup
    by_cases hx : (x.id == d.id) = true
    · have hxd : x = d := by
        rcases List.mem_cons.mp hd with h1 | h1
        · exact h1.symm
        · exact absurd (by rw [eq_of_beq hx]; exact List.mem_map_of_mem _ h1) hnodup.1
      rw [List.eraseP_cons_of_pos (p := fun r : QueryItemRevision => r.id == d.id) hx, hxd, List.erase_cons_head]
    · have hxd : x ≠ d := fun he => hx (by rw [he]; exact beq_self_eq_true d.id)
      have hd' : d ∈ xs := by
        rcases List.mem_cons.mp hd with h1 | h1
        · exact absurd h1.symm hxd
        · exact h1
      rw [List.eraseP_cons_of_neg (p := fun r : QueryItemRevision => r.id == d.id) (by simpa using hx),
        List.erase_cons_tail (by simp [hxd]), ih hd' hnodup.2]

/-- Reduction of `addQueryRevision` on a visible item: the snapshot insert
followed by the eviction step. -/
theorem addQueryRevision_ok_eq {db : Db} {u qid : String} {q0 : QueryItem}
    (hfo : findOne db u qid = Except.ok q0) :
    addQueryRevision db u qid =
      evictOldest qid (resolveMaxRevisionCount db u)
        { id := toString db.nextId, queryItemId := qid, createdById := u,
          name := q0.name, content := q0.content, collectionId := q0.collectionId,
          createdAt := db.now }
        { db with
          revisions := db.revisions ++
            [{ id := toString db.nextId, queryItemId := qid, createdById := u,
               name := q0.name, content := q0.content, collectionId := q0.collectionId,
               createdAt := db.now }]
          nextId := db.nextId + 1
          now := db.now + 1
          revisionCalls := db.revisionCalls + 1 } := by
  have hfo' : findOne { db with revisionCalls := db.revisionCalls + 1 } u qid =
      Except.ok q0 := hfo
  simp only [addQueryRevision, hfo']
  rfl

/-- C6: every revision-recording call on a visible item inserts the snapshot
and then counts that item's revisions; if and only if the count exceeds the
resolved limit, exactly one revision is deleted — one with minimal creation
timestamp among that item's revisions — and never more than one record. -/
theorem revision_eviction_single_oldest (db : Db) (u qid : String)
    (hvis : itemVisible db u qid = true)
    (hnodup : (db.revisions.map (fun r => r.id)).Nodup)
    (hfresh : ∀ r ∈ db.revisions, r.id ≠ toString db.nextId) :
    ∃ rev : QueryItemRevision,
      (addQueryRevision db u qid).1 = Except.ok rev ∧
      rev.queryItemId = qid ∧
      (if ((db.revisions ++ [rev]).filter (fun r => r.queryItemId == qid)).length >
          resolveMaxRevisionCount db u then
        ∃ d, d ∈ db.revisions ++ [rev] ∧ d.queryItemId = qid ∧
          (∀ s ∈ db.revisions ++ [rev], s.queryItemId = qid →
            d.createdAt ≤ s.createdAt) ∧
          (addQueryRevision db u qid).2.revisions = (db.revisions ++ [rev]).erase d ∧
          ((addQueryRevision db u qid).2.revisions).length + 1 =
            (db.revisions ++ [rev]).length
      else
        (addQueryRevision db u qid).2.revisions = db.revisions ++ [rev]) := by
  obtain ⟨q0, hfo, hmem0, hq0p⟩ := findOne_ok_of_visible hvis
  rw [addQueryRevision_ok_eq hfo]
  set rev : QueryItemRevision :=
    { id := toString db.nextId, queryItemId := qid, createdById := u,
      name := q0.name, content := q0.content, collectionId := q0.collectionId,
      createdAt := db.now } with hrevdef
  refine ⟨rev, ?_⟩
  unfold evictOldest
  dsimp only
  have hnodup' : ((db.revisions ++ [rev]).map (fun r => r.id)).Nodup := by
    rw [List.map_append, List.nodup_append]
    refine ⟨hnodup, List.nodup_singleton _, ?_⟩
    intro a ha hb
    rw [List.map_singleton, List.mem_singleton] at hb
    obtain ⟨r, hr, hra⟩ := List.mem_map.mp ha
    exact hfresh r hr (hra.symm.symm ▸ (hra.trans hb))
  by_cases hcond : ((db.revisions ++ [rev]).filter (fun r => r.queryItemId == qid)).length >
      resolveMaxRevisionCount db u
  · have hne : (db.revisions ++ [rev]).filter (fun r => r.queryItemId == qid) ≠ [] := by
      intro hnil
      rw [hnil] at hcond
      simp at hcond
    obtain ⟨d, hd⟩ := oldestRevision_some hne
    obtain ⟨hdmemf, hdmin⟩ := oldestRevision_spec hd
    have hdmem : d ∈ db.revisions ++ [rev] := List.mem_of_mem_filter hdmemf
    rw [if_pos hcond, if_pos hcond]
    simp only [hd]
    have hdqf := List.of_mem_filter hdmemf
    have hdq : d.queryItemId = qid := eq_of_beq hdqf
    refine ⟨trivial, trivial, d, hdmem, hdq, ?_, ?_, ?_⟩
    · intro s hs hsq
      refine hdmin s (List.mem_filter.mpr ⟨hs, ?_⟩)
      exact beq_iff_eq.mpr hsq
    · show (db.revisions ++ [rev]).eraseP (fun r => r.id == d.id) =
        (db.revisions ++ [rev]).erase d
      exact eraseP_id_eq_erase hdmem hnodup'
    · show ((db.revisions ++ [rev]).eraseP (fun r => r.id == d.id)).length + 1 =
        (db.revisions ++ [rev]).length
      rw [eraseP_id_eq_erase hdmem hnodup', List.length_erase_of_mem hdmem]
      have hpos : 0 < (db.revisions ++ [rev]).length :=
        List.length_pos.mpr (List.ne_nil_of_mem hdmem)
      omega
  · rw [if_neg hcond, if_neg hcond]
    exact ⟨rfl, rfl, rfl⟩

theorem revision_eviction_single_oldest_witness :
    ∃ rev : QueryItemRevision,
      (addQueryRevision restoreDb "u1" "q1").1 = Except.ok rev ∧
      rev.queryItemId = "q1" ∧
      (if ((restoreDb.revisions ++ [rev]).filter (fun r => r.queryItemId == "q1")).length >
          resolveMaxRevisionCount restoreDb "u1" then
        ∃ d, d ∈ restoreDb.revisions ++ [rev] ∧ d.queryItemId = "q1" ∧
          (∀ s ∈ restoreDb.revisions ++ [rev], s.queryItemId = "q1" →
            d.createdAt ≤ s.createdAt) ∧
          (addQueryRevision restoreDb "u1" "q1").2.revisions =
            (restoreDb.revisions ++ [rev]).erase d ∧
          ((addQueryRevision restoreDb "u1" "q1").2.revisions).length + 1 =
            (restoreDb.revisions ++ [rev]).length
      else
        (addQueryRevision restoreDb "u1" "q1").2.revisions =
          restoreDb.revisions ++ [rev]) :=
  revision_eviction_single_oldest restoreDb "u1" "q1" (by decide) (by decide) (by decide)

/-! ### Sequential create calls and the document quota -/

theorem createFinish_queryItems (item : QueryItem)
    (p : Except ApiError QueryItemRevision × Db) :
    (createFinish item p).2.queryItems = p.2.queryItems := by
  unfold createFinish
  rcases p with ⟨r, s⟩
  cases r <;> rfl

theorem createFinish_collections (item : QueryItem)
    (p : Except ApiError QueryItemRevision × Db) :
    (createFinish item p).2.collections = p.2.collections := by
  unfold createFinish
  rcases p with ⟨r, s⟩
  cases r <;> rfl

theorem createFinish_workspaces (item : QueryItem)
    (p : Except ApiError QueryItemRevision × Db) :
    (createFinish item p).2.workspaces = p.2.workspaces := by
  unfold createFinish
  rcases p with ⟨r, s⟩
  cases r <;> rfl

theorem createFinish_planConfigs (item : QueryItem)
    (p : Except ApiError QueryItemRevision × Db) :
    (createFinish item p).2.planConfigs = p.2.planConfigs := by
  unfold createFinish
  rcases p with ⟨r, s⟩
  cases r <;> rfl

theorem create_collections (db : Db) (u : String) (dto : CreateQueryDto) :
    (create db u dto).2.collections = db.collections := by
  unfold create
  split
  · rfl
  · split
    · rfl
    · split
      · rfl
      · dsimp only
        rw [createFinish_collections, addQueryRevision_collections]

theorem create_workspaces (db : Db) (u : String) (dto : CreateQueryDto) :
    (create db u dto).2.workspaces = db.workspaces := by
  unfold create
  split
  · rfl
  · split
    · rfl
    · split
      · rfl
      · dsimp only
        rw [createFinish_workspaces, addQueryRevision_workspaces]

theorem create_planConfigs (db : Db) (u : String) (dto : CreateQueryDto) :
    (create db u dto).2.planConfigs = db.planConfigs := by
  unfold create
  split
  · rfl
  · split
    · rfl
    · split
      · rfl
      · dsimp only
        rw [createFinish_planConfigs, addQueryRevision_planConfigs]

/-- A row whose collection is the first collection with the dto's id and is
owned by the user passes the owner-only scope. -/
theorem ownerWhere_new_item {db : Db} {u cid : String}
    (hc : ownsCollection db u cid = true) (q : QueryItem) (hqc : q.collectionId = cid) :
    ownerWhere db u q = true := by
  unfold ownsCollection at hc
  unfold ownerWhere
  rw [hqc]
  cases hfc : db.collections.find? (fun c => c.id == cid) with
  | none => simp only [hfc] at hc; simp at hc
  | some c =>
    simp only [hfc] at hc ⊢
    exact hc

/-- Such a row is in particular in the owner-or-member scope. -/
theorem ownerOrMember_new_item {db : Db} {u cid : String}
    (hc : ownsCollection db u cid = true) (q : QueryItem) (hqc : q.collectionId = cid) :
    ownerOrMemberWhere db u q = true :=
  ownerOrMemberWhere_of_ownerWhere (ownerWhere_new_item hc q hqc)

/-- Lemma: `oldestRevision` only fails on the empty list. -/
theorem oldestRevision_eq_none {l : List QueryItemRevision}
    (h : oldestRevision l = none) : l = [] := by
  cases l with
  | nil => rfl
  | cons r rs => cases h

/-- Lemma: `evictOldest` never throws: the freshly inserted revision keeps the
filtered list non-empty, so the oldest-row lookup always succeeds. -/
theorem addQueryRevision_isOk {db : Db} {u i : String} (h : itemVisible db u i = true) :
    ∃ v, (addQueryRevision db u i).1 = Except.ok v := by
  obtain ⟨q0, hfo, hmem0, hq0p⟩ := findOne_ok_of_visible h
  rw [addQueryRevision_ok_eq hfo]
  unfold evictOldest
  dsimp only
  split
  next hgt =>
    split
    · exact ⟨_, rfl⟩
    · next heq =>
      exfalso
      rw [oldestRevision_eq_none heq] at hgt
      simp at hgt
  next hgt => exact ⟨_, rfl⟩

/-- One step of a sequential create run: below quota `create` succeeds and
the owner-scoped document count grows by one; at or above quota it fails
with the quota error without touching the state. -/
theorem create_quota_step (db : Db) (u : String) (dto : CreateQueryDto)
    (hv : validDto dto = true)
    (hc : ownsCollection db u dto.collectionId = true) :
    if ownedQueryCount db u < resolveMaxDocumentCount db u then
      ((create db u dto).1.isOk = true ∧
        ownedQueryCount (create db u dto).2 u = ownedQueryCount db u + 1)
    else
      ((create db u dto).1 = Except.error (ApiError.invalidRequest "ERR_MAX_QUERY_COUNT") ∧
        (create db u dto).2 = db) := by
  by_cases hq : ownedQueryCount db u < resolveMaxDocumentCount db u
  · rw [if_pos hq]
    have hnge : ¬ (ownedQueryCount db u ≥ resolveMaxDocumentCount db u) := by omega
    have hvne : ¬ ((!validDto dto) = true) := by simp [hv]
    have hfne : ¬ ((db.collections.filter
        (fun c => c.id == dto.collectionId && collectionOwnedBy db u c)).isEmpty = true) := by
      intro hempty
      rw [List.isEmpty_iff, List.filter_eq_nil_iff] at hempty
      unfold ownsCollection at hc
      cases hfc : db.collections.find? (fun c => c.id == dto.collectionId) with
      | none => simp only [hfc] at hc; simp at hc
      | some c =>
        simp only [hfc] at hc
        have hcm : c ∈ db.collections := List.mem_of_find?_eq_some hfc
        have hcid := List.find?_some hfc
        exact hempty c hcm (by simp [hcid, hc])
    have hitems : (create db u dto).2.queryItems = db.queryItems ++
        [{ id := toString db.nextId, collectionId := dto.collectionId, name := dto.name,
           queryVersion := (dto.content.getD { version := 1, query := "" }).version,
           content := dto.content.getD { version := 1, query := "" } }] := by
      unfold create
      rw [if_neg hnge, if_neg hvne, if_neg hfne]
      dsimp only
      rw [createFinish_queryItems, addQueryRevision_queryItems]
    have hvisible : itemVisible
        ({ db with
            queryItems := db.queryItems ++
              [{ id := toString db.nextId, collectionId := dto.collectionId,
                 name := dto.name,
                 queryVersion := (dto.content.getD { version := 1, query := "" }).version,
                 content := dto.content.getD { version := 1, query := "" } }]
            nextId := db.nextId + 1 } : Db) u (toString db.nextId) = true := by
      apply List.any_eq_true.mpr
      refine ⟨_, List.mem_append_right _ (List.mem_singleton_self _), ?_⟩
      rw [Bool.and_eq_true]
      refine ⟨beq_self_eq_true _, ?_⟩
      have hc2 : ownsCollection db u dto.collectionId = true := hc
      exact ownerOrMember_new_item hc2 _ rfl
    constructor
    · unfold create
      rw [if_neg hnge, if_neg hvne, if_neg hfne]
      dsimp only
      obtain ⟨v, hvok⟩ := addQueryRevision_isOk hvisible
      unfold createFinish
      rw [hvok]
      rfl
    · unfold ownedQueryCount
      rw [hitems]
      rw [List.filter_congr (fun q _ =>
        ownerWhere_congr u q (create_collections db u dto) (create_workspaces db u dto))]
      rw [List.filter_append, List.length_append]
      have hpos : ownerWhere db u
          ({ id := toString db.nextId, collectionId := dto.collectionId, name := dto.name,
             queryVersion := (dto.content.getD { version := 1, query := "" }).version,
             content := dto.content.getD { version := 1, query := "" } } : QueryItem)
          = true :=
        ownerWhere_new_item hc _ rfl
      rw [List.filter_cons_of_pos hpos]
      rfl
  · rw [if_neg hq]
    have hge : ownedQueryCount db u ≥ resolveMaxDocumentCount db u := by omega
    unfold create
    rw [if_pos hge]
    exact ⟨rfl, rfl⟩

/-- Invariant of the sequential-create iteration: after `k ≤ M` calls the
user owns exactly `k` documents and the tenancy/plan tables are unchanged. -/
theorem createIter_invariant (db : Db) (u : String) (dto : CreateQueryDto)
    (hv : validDto dto = true)
    (hc : ownsCollection db u dto.collectionId = true)
    (h0 : ownedQueryCount db u = 0) :
    ∀ k, k ≤ resolveMaxDocumentCount db u →
      ownedQueryCount (createIter db u dto k) u = k ∧
      (createIter db u dto k).collections = db.collections ∧
      (createIter db u dto k).workspaces = db.workspaces ∧
      (createIter db u dto k).planConfigs = db.planConfigs := by
  intro k
  induction k with
  | zero => exact fun _ => ⟨h0, rfl, rfl, rfl⟩
  | succ k ih =>
    intro hk
    obtain ⟨hcount, hcol, hws, hpc⟩ := ih (Nat.le_of_succ_le hk)
    have hck : ownsCollection (createIter db u dto k) u dto.collectionId = true := by
      rw [ownsCollection_congr u dto.collectionId hcol hws]
      exact hc
    have hstep := create_quota_step (createIter db u dto k) u dto hv hck
    have hlim : resolveMaxDocumentCount (createIter db u dto k) u =
        resolveMaxDocumentCount db u := resolveMaxDocumentCount_congr u hpc
    have hlt : ownedQueryCount (createIter db u dto k) u <
        resolveMaxDocumentCount (createIter db u dto k) u := by
      rw [hcount, hlim]
      omega
    rw [if_pos hlt] at hstep
    refine ⟨?_, ?_, ?_, ?_⟩
    · show ownedQueryCount (create (createIter db u dto k) u dto).2 u = k + 1
      rw [hstep.2, hcount]
    · show (create (createIter db u dto k) u dto).2.collections = db.collections
      rw [create_collections, hcol]
    · show (create (createIter db u dto k) u dto).2.workspaces = db.workspaces
      rw [create_workspaces, hws]
    · show (create (createIter db u dto k) u dto).2.planConfigs = db.planConfigs
      rw [create_planConfigs, hpc]

/-- C4: with resolved `maxDocumentCount = M`, zero owned documents at the
start, a well-formed dto and an owned target collection, every one of the
first M sequential create calls succeeds (in particular the M-th when
`M ≥ 1`) and the (M+1)-th call fails with the quota error; for `M = 0` the
very first call already fails with the quota error. -/
theorem create_quota_sequential (db : Db) (u : String) (dto : CreateQueryDto) (M : Nat)
    (hM : resolveMaxDocumentCount db u = M)
    (h0 : ownedQueryCount db u = 0)
    (hv : validDto dto = true)
    (hc : ownsCollection db u dto.collectionId = true) :
    (∀ k, k < M → ((create (createIter db u dto k) u dto).1).isOk = true) ∧
    (create (createIter db u dto M) u dto).1 =
      Except.error (ApiError.invalidRequest "ERR_MAX_QUERY_COUNT") := by
  subst hM
  constructor
  · intro k hk
    obtain ⟨hcount, hcol, hws, hpc⟩ :=
      createIter_invariant db u dto hv hc h0 k (Nat.le_of_lt hk)
    have hck : ownsCollection (createIter db u dto k) u dto.collectionId = true := by
      rw [ownsCollection_congr u dto.collectionId hcol hws]
      exact hc
    have hstep := create_quota_step (createIter db u dto k) u dto hv hck
    have hlim : resolveMaxDocumentCount (createIter db u dto k) u =
        resolveMaxDocumentCount db u := resolveMaxDocumentCount_congr u hpc
    have hlt : ownedQueryCount (createIter db u dto k) u <
        resolveMaxDocumentCount (createIter db u dto k) u := by
      rw [hcount, hlim]
      omega
    rw [if_pos hlt] at hstep
    exact hstep.1
  · obtain ⟨hcount, hcol, hws, hpc⟩ :=
      createIter_invariant db u dto hv hc h0 _ (Nat.le_refl _)
    have hck : ownsCollection (createIter db u dto (resolveMaxDocumentCount db u)) u
        dto.collectionId = true := by
      rw [ownsCollection_congr u dto.collectionId hcol hws]
      exact hc
    have hstep := create_quota_step (createIter db u dto (resolveMaxDocumentCount db u))
      u dto hv hck
    have hlim : resolveMaxDocumentCount
        (createIter db u dto (resolveMaxDocumentCount db u)) u =
        resolveMaxDocumentCount db u := resolveMaxDocumentCount_congr u hpc
    have hnlt : ¬ (ownedQueryCount (createIter db u dto (resolveMaxDocumentCount db u)) u <
        resolveMaxDocumentCount (createIter db u dto (resolveMaxDocumentCount db u)) u) := by
      rw [hcount, hlim]
      omega
    rw [if_neg hnlt] at hstep
    exact hstep.1

/-- A tenant with an empty collection and a one-document plan, used to
instantiate the sequential-quota theorem. -/
def quotaDb : Db :=
  { workspaces := [{ id := "w4", ownerId := "u4", teamId := none }]
    memberships := []
    collections := [{ id := "c4", workspaceId := "w4" }]
    queryItems := []
    revisions := []
    planConfigs := [("u4", { maxQueryCount := some 1, queryRevisionLimit := some 2 })]
    nextId := 0
    now := 0
    events := []
    revisionCalls := 0 }

/-- A well-formed dto targeting `quotaDb`'s collection. -/
def quotaDtoW : CreateQueryDto :=
  { collectionId := "c4", name := "epsilon", content := some sampleContent }

theorem create_quota_sequential_witness :
    (∀ k, k < 1 →
      ((create (createIter quotaDb "u4" quotaDtoW k) "u4" quotaDtoW).1).isOk = true) ∧
    (create (createIter quotaDb "u4" quotaDtoW 1) "u4" quotaDtoW).1 =
      Except.error (ApiError.invalidRequest "ERR_MAX_QUERY_COUNT") :=
  create_quota_sequential quotaDb "u4" quotaDtoW 1 rfl rfl rfl rfl

/-! ### A single update's effect on the revision stream -/

/-- The state reached by `update` just before its revision step: the scoped
bulk update applied, plus the notification when a row matched. -/
def updateMid (db : Db) (userId id : String) (dto : UpdateQueryDto) : Db :=
  if matchedCount db userId id != 0
    then emitEvent { db with queryItems := updatedItems db userId id dto } id
    else { db with queryItems := updatedItems db userId id dto }

theorem update_snd2 (db : Db) (u i : String) (dto : UpdateQueryDto) :
    (update db u i dto).2 = (addQueryRevision (updateMid db u i dto) u i).2 :=
  update_snd db u i dto

theorem updateMid_queryItems (db : Db) (u i : String) (dto : UpdateQueryDto) :
    (updateMid db u i dto).queryItems = updatedItems db u i dto := by
  unfold updateMid
  split <;> rfl

theorem updateMid_revisions (db : Db) (u i : String) (dto : UpdateQueryDto) :
    (updateMid db u i dto).revisions = db.revisions := by
  unfold updateMid
  split <;> rfl

theorem updateMid_collections (db : Db) (u i : String) (dto : UpdateQueryDto) :
    (updateMid db u i dto).collections = db.collections := by
  unfold updateMid
  split <;> rfl

theorem updateMid_workspaces (db : Db) (u i : String) (dto : UpdateQueryDto) :
    (updateMid db u i dto).workspaces = db.workspaces := by
  unfold updateMid
  split <;> rfl

theorem updateMid_memberships (db : Db) (u i : String) (dto : UpdateQueryDto) :
    (updateMid db u i dto).memberships = db.memberships := by
  unfold updateMid
  split <;> rfl

theorem updateMid_planConfigs (db : Db) (u i : String) (dto : UpdateQueryDto) :
    (updateMid db u i dto).planConfigs = db.planConfigs := by
  unfold updateMid
  split <;> rfl

theorem updateMid_now (db : Db) (u i : String) (dto : UpdateQueryDto) :
    (updateMid db u i dto).now = db.now := by
  unfold updateMid
  split <;> rfl

theorem updateMid_nextId (db : Db) (u i : String) (dto : UpdateQueryDto) :
    (updateMid db u i dto).nextId = db.nextId := by
  unfold updateMid
  split <;> rfl

/-- The owner-or-member scope of a row depends only on its `collectionId`. -/
theorem ownerOrMemberWhere_collectionId_congr {db : Db} {u : String} {q q' : QueryItem}
    (h : q'.collectionId = q.collectionId) :
    ownerOrMemberWhere db u q' = ownerOrMemberWhere db u q := by
  unfold ownerOrMemberWhere
  rw [h]

theorem itemVisible_congr {db db' : Db} (u i : String)
    (hq : db'.queryItems = db.queryItems) (hc : db'.collections = db.collections)
    (hw : db'.workspaces = db.workspaces) (hm : db'.memberships = db.memberships) :
    itemVisible db' u i = itemVisible db u i := by
  unfold itemVisible
  rw [hq]
  congr 1
  funext q
  rw [ownerOrMemberWhere_congr u q hc hw hm]

/-- A scoped bulk update that does not move the item keeps it visible in the
intermediate state. -/
theorem itemVisible_updateMid {db : Db} {u qid : String} {dto : UpdateQueryDto}
    (hdto : dto.collectionId = none) (hvis : itemVisible db u qid = true) :
    itemVisible (updateMid db u qid dto) u qid = true := by
  obtain ⟨q, hq, hp⟩ := List.any_eq_true.mp hvis
  rw [Bool.and_eq_true] at hp
  apply List.any_eq_true.mpr
  have hmemq : (if q.id == qid && ownerOrMemberWhere db u q then applyUpdateDto dto q
      else q) ∈ (updateMid db u qid dto).queryItems := by
    rw [updateMid_queryItems]
    unfold updatedItems
    exact List.mem_map_of_mem _ hq
  rw [if_pos (by rw [Bool.and_eq_true]; exact ⟨hp.1, hp.2⟩)] at hmemq
  refine ⟨applyUpdateDto dto q, hmemq, ?_⟩
  rw [Bool.and_eq_true]
  refine ⟨?_, ?_⟩
  · show (q.id == qid) = true
    exact hp.1
  · rw [ownerOrMemberWhere_congr u _ (updateMid_collections db u qid dto)
      (updateMid_workspaces db u qid dto) (updateMid_memberships db u qid dto)]
    rw [ownerOrMemberWhere_collectionId_congr (q := q) (by simp [applyUpdateDto, hdto])]
    exact hp.2

/-- One update of a visible item that does not move it: the tenancy/plan
tables are untouched, the clock and id source advance by one, the item stays
visible, and the revision stream either just gains the new snapshot (taken
at the pre-update clock) or additionally loses the row selected by the
oldest-revision lookup when the count exceeds the resolved limit. -/
theorem update_step_shape (db : Db) (u qid : String) (dto : UpdateQueryDto)
    (hdto : dto.collectionId = none) (hvis : itemVisible db u qid = true) :
    itemVisible (update db u qid dto).2 u qid = true ∧
    (update db u qid dto).2.collections = db.collections ∧
    (update db u qid dto).2.workspaces = db.workspaces ∧
    (update db u qid dto).2.memberships = db.memberships ∧
    (update db u qid dto).2.planConfigs = db.planConfigs ∧
    (update db u qid dto).2.now = db.now + 1 ∧
    (update db u qid dto).2.nextId = db.nextId + 1 ∧
    ∃ rev : QueryItemRevision, rev.queryItemId = qid ∧ rev.createdAt = db.now ∧
      (if ((db.revisions ++ [rev]).filter (fun r => r.queryItemId == qid)).length >
          resolveMaxRevisionCount db u then
        ∃ d, oldestRevision ((db.revisions ++ [rev]).filter
            (fun r => r.queryItemId == qid)) = some d ∧
          (update db u qid dto).2.revisions =
            (db.revisions ++ [rev]).eraseP (fun r => r.id == d.id)
      else (update db u qid dto).2.revisions = db.revisions ++ [rev]) := by
  have hvm : itemVisible (updateMid db u qid dto) u qid = true :=
    itemVisible_updateMid hdto hvis
  obtain ⟨q0, hfo, hm0, hp0⟩ := findOne_ok_of_visible hvm
  have heq := update_snd2 db u qid dto
  have haq := addQueryRevision_ok_eq hfo
  have hlim : resolveMaxRevisionCount (updateMid db u qid dto) u =
      resolveMaxRevisionCount db u :=
    resolveMaxRevisionCount_congr u (updateMid_planConfigs db u qid dto)
  have hqi : (update db u qid dto).2.queryItems = (updateMid db u qid dto).queryItems := by
    rw [heq, haq, evictOldest_queryItems]
  have hcc : (update db u qid dto).2.collections = db.collections := by
    rw [heq, addQueryRevision_collections, updateMid_collections]
  have hww : (update db u qid dto).2.workspaces = db.workspaces := by
    rw [heq, addQueryRevision_workspaces, updateMid_workspaces]
  have hmm : (update db u qid dto).2.memberships = db.memberships := by
    rw [heq, addQueryRevision_memberships, updateMid_memberships]
  have hpp : (update db u qid dto).2.planConfigs = db.planConfigs := by
    rw [heq, addQueryRevision_planConfigs, updateMid_planConfigs]
  refine ⟨?_, hcc, hww, hmm, hpp, ?_, ?_, ?_⟩
  · rw [itemVisible_congr u qid hqi
      (hcc.trans (updateMid_collections db u qid dto).symm)
      (hww.trans (updateMid_workspaces db u qid dto).symm)
      (hmm.trans (updateMid_memberships db u qid dto).symm)]
    exact hvm
  · rw [heq, haq, evictOldest_now]
    show (updateMid db u qid dto).now + 1 = db.now + 1
    rw [updateMid_now]
  · rw [heq, haq, evictOldest_nextId]
    show (updateMid db u qid dto).nextId + 1 = db.nextId + 1
    rw [updateMid_nextId]
  · refine ⟨{ id := toString (updateMid db u qid dto).nextId, queryItemId := qid,
              createdById := u, name := q0.name, content := q0.content,
              collectionId := q0.collectionId,
              createdAt := (updateMid db u qid dto).now }, rfl, ?_, ?_⟩
    · show (updateMid db u qid dto).now = db.now
      rw [updateMid_now]
    · rw [heq, haq]
      unfold evictOldest
      dsimp only
      rw [updateMid_revisions, hlim]
      split
      next hgt =>
        cases hod : oldestRevision ((db.revisions ++
            [({ id := toString (updateMid db u qid dto).nextId, queryItemId := qid,
                createdById := u, name := q0.name, content := q0.content,
                collectionId := q0.collectionId,
                createdAt := (updateMid db u qid dto).now } : QueryItemRevision)]).filter
              (fun r => r.queryItemId == qid)) with
        | none =>
          exfalso
          rw [oldestRevision_eq_none hod] at hgt
          simp at hgt
        | some d =>
          exact ⟨d, rfl, rfl⟩
      next hgt =>
        rfl

/-- C5: with resolved revision limit 2, starting from a visible item with no
revisions, three sequential updates that do not move the item leave exactly
2 revisions: the 2nd and 3rd snapshots (creation times `now + 1` and
`now + 2`); the 1st — the oldest, creation time `now` — was evicted. -/
theorem three_updates_leave_two_revisions (db : Db) (u qid : String)
    (d1 d2 d3 : UpdateQueryDto)
    (h1 : d1.collectionId = none) (h2 : d2.collectionId = none) (h3 : d3.collectionId = none)
    (hvis : itemVisible db u qid = true)
    (hrev : db.revisions = [])
    (hlim : resolveMaxRevisionCount db u = 2) :
    ((update (update (update db u qid d1).2 u qid d2).2 u qid d3).2.revisions.map
        (fun r => r.createdAt) = [db.now + 1, db.now + 2]) ∧
    ((update (update (update db u qid d1).2 u qid d2).2 u qid d3).2.revisions.map
        (fun r => r.queryItemId) = [qid, qid]) ∧
    ((update (update (update db u qid d1).2 u qid d2).2 u qid d3).2.revisions.length
        = 2) := by
  obtain ⟨hv1, hc1, hw1, hm1, hp1, hn1, hx1, rev1, hq1, ht1, hif1⟩ :=
    update_step_shape db u qid d1 h1 hvis
  have hcond1 : ¬ (((db.revisions ++ [rev1]).filter
      (fun r => r.queryItemId == qid)).length > resolveMaxRevisionCount db u) := by
    rw [hrev, hlim]
    simp [hq1]
  rw [if_neg hcond1, hrev, List.nil_append] at hif1
  obtain ⟨hv2, hc2, hw2, hm2, hp2, hn2, hx2, rev2, hq2, ht2, hif2⟩ :=
    update_step_shape (update db u qid d1).2 u qid d2 h2 hv1
  have hlimA : resolveMaxRevisionCount (update db u qid d1).2 u = 2 := by
    rw [resolveMaxRevisionCount_congr u hp1, hlim]
  have ht2' : rev2.createdAt = db.now + 1 := by rw [ht2, hn1]
  have hcond2 : ¬ ((((update db u qid d1).2.revisions ++ [rev2]).filter
      (fun r => r.queryItemId == qid)).length >
        resolveMaxRevisionCount (update db u qid d1).2 u) := by
    rw [hif1, hlimA]
    simp [hq1, hq2]
  rw [if_neg hcond2, hif1, List.singleton_append] at hif2
  obtain ⟨hv3, hc3, hw3, hm3, hp3, hn3, hx3, rev3, hq3, ht3, hif3⟩ :=
    update_step_shape (update (update db u qid d1).2 u qid d2).2 u qid d3 h3 hv2
  have hlimB : resolveMaxRevisionCount (update (update db u qid d1).2 u qid d2).2 u = 2 := by
    rw [resolveMaxRevisionCount_congr u hp2, hlimA]
  have ht3' : rev3.createdAt = db.now + 2 := by rw [ht3, hn2, hn1]
  have hfil : (([rev1, rev2] ++ [rev3]).filter (fun r => r.queryItemId == qid)) =
      [rev1, rev2] ++ [rev3] := by
    apply List.filter_eq_self.mpr
    intro a ha
    rcases List.mem_append.mp ha with haa | haa
    · rcases List.mem_cons.mp haa with h | h
      · subst h; exact beq_iff_eq.mpr hq1
      · rw [List.mem_singleton] at h; subst h; exact beq_iff_eq.mpr hq2
    · rw [List.mem_singleton] at haa; subst haa; exact beq_iff_eq.mpr hq3
  have hcond3 : ((((update (update db u qid d1).2 u qid d2).2.revisions ++ [rev3]).filter
      (fun r => r.queryItemId == qid)).length >
        resolveMaxRevisionCount (update (update db u qid d1).2 u qid d2).2 u) := by
    rw [hif2, hlimB, hfil]
    simp
  rw [if_pos hcond3, hif2] at hif3
  obtain ⟨d, hod, hrevs3⟩ := hif3
  have h21 : ¬ (rev2.createdAt < rev1.createdAt) := by
    rw [ht1, ht2']
    omega
  have h31 : ¬ (rev3.createdAt < rev1.createdAt) := by
    rw [ht1, ht3']
    omega
  have hold : oldestRevision (([rev1, rev2] ++ [rev3]).filter
      (fun r => r.queryItemId == qid)) = some rev1 := by
    rw [hfil]
    show some ((rev2 :: [rev3]).foldl
      (fun acc x => if x.createdAt < acc.createdAt then x else acc) rev1) = some rev1
    rw [List.foldl_cons, if_neg h21, List.foldl_cons, if_neg h31, List.foldl_nil]
  have hd1 : d = rev1 := (Option.some.inj ((hold.symm).trans hod)).symm
  subst hd1
  have hrevs3' : (update (update (update db u qid d1).2 u qid d2).2 u qid d3).2.revisions =
      [rev2, rev3] := by
    rw [hrevs3]
    show (d :: ([rev2] ++ [rev3])).eraseP (fun r => r.id == d.id) = [rev2, rev3]
    rw [List.eraseP_cons_of_pos (p := fun r : QueryItemRevision => r.id == d.id)
      (beq_self_eq_true d.id)]
    rfl
  rw [hrevs3']
  refine ⟨?_, ?_, rfl⟩
  · rw [List.map_cons, List.map_cons, List.map_nil, ht2', ht3']
  · rw [List.map_cons, List.map_cons, List.map_nil, hq2, hq3]

/-- A dto that only renames the item (no collection move). -/
def updDtoW : UpdateQueryDto := { name := some "vee", collectionId := none, content := none }

theorem three_updates_leave_two_revisions_witness :
    ((update (update (update twoTenantDb "u1" "q1" updDtoW).2 "u1" "q1" updDtoW).2
        "u1" "q1" updDtoW).2.revisions.map (fun r => r.createdAt) =
      [twoTenantDb.now + 1, twoTenantDb.now + 2]) ∧
    ((update (update (update twoTenantDb "u1" "q1" updDtoW).2 "u1" "q1" updDtoW).2
        "u1" "q1" updDtoW).2.revisions.map (fun r => r.queryItemId) = ["q1", "q1"]) ∧
    ((update (update (update twoTenantDb "u1" "q1" updDtoW).2 "u1" "q1" updDtoW).2
        "u1" "q1" updDtoW).2.revisions.length = 2) :=
  three_updates_leave_two_revisions twoTenantDb "u1" "q1" updDtoW updDtoW updDtoW
    rfl rfl rfl (by decide) rfl rfl

end Altair
